import Mathlib

/-!
Shallow embedding of the SizeTrimmer media-conversion pipeline
(`sizetrimmer.py`): the classifier `get_media_type`, the stability
detector `is_file_stable` and its waiting loop, the optimization oracle
`is_already_optimized`, the conversion worker `convert_media` /
`worker_loop`, and the deduplicating queue `enqueue_file`.

Paths are modelled as `List Char`.  External effects (filesystem reads,
the ffprobe/ffmpeg subprocesses, removes and renames) are modelled by an
explicit oracle `JobWorld` recording the result each call would return,
and the effects a job performs are accumulated in `JobEffects`.
Python exceptions are modelled as `Option`/explicit outcome values.
-/

namespace SizeTrimmer

/-- ASCII lower-casing of one character, as Python `str.lower` acts on
ASCII: an uppercase letter (codepoint 65..90) is shifted by 32, anything
else is unchanged. -/
def lowerChar (c : Char) : Char :=
  if 65 ≤ c.toNat ∧ c.toNat ≤ 90 then Char.ofNat (c.toNat + 32) else c

/-- Character is an ASCII uppercase letter. -/
def isUpperChar (c : Char) : Bool :=
  decide (65 ≤ c.toNat ∧ c.toNat ≤ 90)

/-- Lower-case a path, as `file_path.lower()` does. -/
def toLowerL (s : List Char) : List Char := s.map lowerChar

/-- Does `l` start with `p`?  (Python `str.startswith`, used to build the
substring test.) -/
def startsWithL : List Char → List Char → Bool
  | _, [] => true
  | [], _ :: _ => false
  | a :: as, b :: bs => a = b && startsWithL as bs

/-- Substring containment, Python's `needle in hay`. -/
def containsL : List Char → List Char → Bool
  | [], needle => needle.isEmpty
  | h :: t, needle => startsWithL (h :: t) needle || containsL t needle

/-- Suffix test, Python's `str.endswith`. -/
def endsWithL (l suf : List Char) : Bool :=
  startsWithL l.reverse suf.reverse

/-- The basename of a path: everything after the last `/`
(`os.path.basename` on a posix system). -/
def baseNameL (p : List Char) : List Char :=
  ((p.reverse.takeWhile (fun c => c ≠ '/')).reverse)

/-- The extension part of `os.path.splitext` (posix rules): the suffix of
the basename starting at its last dot, provided some non-dot character
of the basename precedes that dot. -/
def splitextExt (p : List Char) : List Char :=
  let b := baseNameL p
  let r := b.reverse
  let afterR := r.takeWhile (fun c => c ≠ '.')
  let rest := r.drop afterR.length
  match rest with
  | [] => []
  | _ :: pre => if pre.any (fun c => c ≠ '.') then '.' :: afterR.reverse else []

/-- The root part of `os.path.splitext`: the path with `splitextExt`
removed from its end. -/
def splitextBase (p : List Char) : List Char :=
  p.take (p.length - (splitextExt p).length)

/-- Media categories assigned by the classifier. -/
inductive MediaType where
  | tv
  | movie
  | audio
deriving DecidableEq, Repr

/-- The configuration fields the core pipeline reads (with their
defaults already merged in, as `load_config` guarantees). -/
structure Config where
  tvShowKeywords : List (List Char)
  movieKeywords : List (List Char)
  musicKeywords : List (List Char)
  videoCodec : String
  audioCodecMusic : String
  tvResolution : String
  movieResolution : String
  dryRun : Bool
deriving DecidableEq, Repr

/-- `VIDEO_EXTS` from the source. -/
def videoExts : List (List Char) :=
  [".mp4".data, ".mkv".data, ".avi".data, ".mov".data, ".wmv".data,
   ".flv".data, ".webm".data, ".m4v".data]

/-- `AUDIO_EXTS` from the source. -/
def audioExts : List (List Char) :=
  [".mp3".data, ".flac".data, ".wav".data, ".m4a".data, ".ogg".data, ".aac".data]

/-- One keyword test of `get_media_type`:
`f"/{kw}/" in path_lower or f"\\{kw}\\" in path_lower`. -/
def matchesKw (pathLower kw : List Char) : Bool :=
  containsL pathLower ('/' :: (kw ++ ['/'])) ||
  containsL pathLower ('\\' :: (kw ++ ['\\']))

/-- The classifier `get_media_type(file_path, config)`.  The extension is
the lower-cased `splitext` extension; the path is lower-cased before any
keyword test while keywords are used verbatim. -/
def get_media_type (filePath : List Char) (cfg : Config) : Option MediaType :=
  let ext := toLowerL (splitextExt filePath)
  let pathLower := toLowerL filePath
  if (cfg.musicKeywords.any (fun kw => matchesKw pathLower kw)) &&
      audioExts.contains ext then some .audio
  else if audioExts.contains ext then some .audio
  else if videoExts.contains ext then
    if cfg.tvShowKeywords.any (fun kw => matchesKw pathLower kw) then some .tv
    else if cfg.movieKeywords.any (fun kw => matchesKw pathLower kw) then some .movie
    else some .movie
  else none

/-- `is_file_stable`: two successive `os.path.getsize` reads (modelled as
`Option Nat`, `none` when the read raises `OSError`); stable iff both
reads succeed and agree. -/
def is_file_stable (r1 r2 : Option Nat) : Bool :=
  match r1, r2 with
  | some a, some b => a = b
  | _, _ => false

/-- The waiting loop `while not is_file_stable(file_path): time.sleep(10)`,
fuel-bounded.  Iteration `k` consumes size reads `2*k` and `2*k+1` from the
read stream; the result is the iteration at which the loop exits, or `none`
if it has not exited within `fuel` iterations. -/
def stabilityLoop (reads : Nat → Option Nat) : Nat → Nat → Option Nat
  | 0, _ => none
  | fuel + 1, k =>
    if is_file_stable (reads (2 * k)) (reads (2 * k + 1)) then some k
    else stabilityLoop reads fuel (k + 1)

/-- Result of one `get_ffprobe_info` call: codec name, width, height
(`none` models both a probe failure and a missing JSON field, exactly the
`(None, None, None)` return of the source). -/
def ProbeResult : Type := Option String × Option Nat × Option Nat

/-- Decimal digit value of a character, `none` for a non-digit. -/
def digitVal (c : Char) : Option Nat :=
  if 48 ≤ c.toNat ∧ c.toNat ≤ 57 then some (c.toNat - 48) else none

/-- Parse a non-empty all-digit string into a `Nat`, as Python `int()`
accepts it; `none` models `int()` raising `ValueError`. -/
def parseNatAux : List Char → Nat → Option Nat
  | [], acc => some acc
  | c :: cs, acc =>
    match digitVal c with
    | none => none
    | some d => parseNatAux cs (acc * 10 + d)

/-- Python `int(s)` on a decimal string. -/
def parseNat : List Char → Option Nat
  | [] => none
  | c :: cs => parseNatAux (c :: cs) 0

/-- Width parsed from a resolution string, `int(target_res.split('x')[0])`:
the characters before the first `x` fed to `int()`; `none` models the
`int()` call raising on a non-numeric prefix. -/
def resWidth (res : String) : Option Nat :=
  parseNat (res.data.takeWhile (fun c => c ≠ 'x'))

/-- The optimization oracle `is_already_optimized(file_path, media_type,
config)`, with the probe outcome passed in as an oracle value.  The result
is `none` when the Python code would raise (resolution parse failure),
otherwise `some` of the boolean the code returns. -/
def is_already_optimized (filePath : List Char) (mediaType : MediaType)
    (cfg : Config) (probe : ProbeResult) : Option Bool :=
  match probe.1 with
  | none => some false
  | some codec =>
    if codec = "" then some false
    else if mediaType = .audio then
      if cfg.audioCodecMusic = "libmp3lame" && codec = "mp3" then some true
      else some (decide (codec = cfg.audioCodecMusic))
    else
      match resWidth (if mediaType = .tv then cfg.tvResolution else cfg.movieResolution) with
      | none => none
      | some targetWidth =>
        let isHevc := (codec = "hevc" || codec = "h265") &&
          (cfg.videoCodec = "libx265" || cfg.videoCodec = "hevc")
        let isSmallEnough :=
          match probe.2.1 with
          | none => true
          | some w => !(decide (w ≠ 0) && decide (targetWidth ≠ 0) && decide (targetWidth < w))
        let isMkv := endsWithL (toLowerL filePath) ".mkv".data
        some (isHevc && isSmallEnough && isMkv)

/-- A logged `ConversionRecord`, the argument tuple of `log_conversion`. -/
structure Record where
  fileName : List Char
  mediaType : MediaType
  originalSize : Nat
  newSize : Nat
  status : String
  errorMsg : String
deriving DecidableEq, Repr

/-- A filesystem mutation performed by `convert_media`. -/
inductive FsAction where
  | removeOriginal
  | renameTmpToFinal
  | removeTmp
deriving DecidableEq, Repr

/-- Oracle for one job's external world: the outcome every external call
of `convert_media` would produce.  A `false`/`none` in a `...Ok` field
models the corresponding Python call raising. -/
structure JobWorld where
  existsAtEntry : Bool
  sizeReads : Nat → Option Nat
  probe : ProbeResult
  origSize : Option Nat
  encodeOk : Bool
  removeOrigOk : Bool
  renameOk : Bool
  newSize : Option Nat
  tmpExistsInHandler : Bool
  removeTmpOk : Bool

/-- How `convert_media` finished: a `return True` / `return False` /
bare `return`, an exception escaping the function, or the stability loop
still spinning when the fuel ran out. -/
inductive JobOutcome where
  | retTrue
  | retFalse
  | retNone
  | raised
  | hang
deriving DecidableEq, Repr

/-- Observable effects of one `convert_media` run: records appended to
the log sink, filesystem mutations, whether an encode subprocess was
started, whether the path was registered in `current_converting`, and
whether its entry is still present when the function is left. -/
structure JobEffects where
  records : List Record
  fsActions : List FsAction
  encodeInvoked : Bool
  inflightRegistered : Bool
  inflightFinal : Bool
deriving DecidableEq, Repr

/-- Effects of a run that logged nothing, mutated nothing and never
registered the path. -/
def emptyEffects : JobEffects :=
  ⟨[], [], false, false, false⟩

/-- The shared body of both `except` clauses of `convert_media`:
`if os.path.exists(tmp_file): os.remove(tmp_file)` (whose own failure
escapes the handler), then `log_conversion(..., "error", str(e))`, then
`del current_converting[file_path]`, then `return False`. -/
def runHandler (w : JobWorld) (fileName : List Char) (mediaType : MediaType)
    (origSize : Nat) (msg : String) (acc : List FsAction) : JobOutcome × JobEffects :=
  if w.tmpExistsInHandler then
    if w.removeTmpOk then
      (.retFalse, ⟨[⟨fileName, mediaType, origSize, 0, "error", msg⟩],
        acc ++ [.removeTmp], true, true, false⟩)
    else
      (.raised, ⟨[], acc, true, true, true⟩)
  else
    (.retFalse, ⟨[⟨fileName, mediaType, origSize, 0, "error", msg⟩],
      acc, true, true, false⟩)

/-- The part of `convert_media` after the stability loop: oracle check
(whose exception would propagate before any registration), registration
in `current_converting`, original-size read, dry-run short circuit, the
encode, the remove/rename replacement step and the success log, with both
`except` clauses modelled by `runHandler`. -/
def convertMediaCore (w : JobWorld) (filePath : List Char) (mediaType : MediaType)
    (cfg : Config) : JobOutcome × JobEffects :=
  match is_already_optimized filePath mediaType cfg w.probe with
  | none => (.raised, emptyEffects)
  | some true => (.retTrue, emptyEffects)
  | some false =>
    let fileName := baseNameL filePath
    let origSize := w.origSize.getD 0
    let outExt : List Char := if mediaType = .audio then ".mp3".data else ".mkv".data
    let finalFile := splitextBase filePath ++ outExt
    if cfg.dryRun then
      (.retTrue, ⟨[⟨fileName, mediaType, origSize, origSize, "success (dry-run)", ""⟩],
        [], false, true, false⟩)
    else if w.encodeOk = false then
      runHandler w fileName mediaType origSize "encode failed" []
    else if filePath ≠ finalFile ∧ w.removeOrigOk = false then
      runHandler w fileName mediaType origSize "remove failed" []
    else
      let acc1 : List FsAction := if filePath ≠ finalFile then [.removeOriginal] else []
      if w.renameOk = false then
        runHandler w fileName mediaType origSize "rename failed" acc1
      else
        match w.newSize with
        | none =>
          runHandler w fileName mediaType origSize "getsize failed"
            (acc1 ++ [.renameTmpToFinal])
        | some ns =>
          (.retTrue, ⟨[⟨fileName, mediaType, origSize, ns, "success", ""⟩],
            acc1 ++ [.renameTmpToFinal], true, true, false⟩)

/-- `convert_media(file_path, media_type, config)`: missing path aborts
silently; then the stability-wait loop (fuel-bounded); then the core. -/
def convert_media (w : JobWorld) (filePath : List Char) (mediaType : MediaType)
    (cfg : Config) (fuel : Nat) : JobOutcome × JobEffects :=
  if w.existsAtEntry = false then (.retNone, emptyEffects)
  else
    match stabilityLoop w.sizeReads fuel 0 with
    | none => (.hang, emptyEffects)
    | some _ => convertMediaCore w filePath mediaType cfg

/-- One iteration of `worker_loop` handling a dequeued job: run
`convert_media` with every exception caught and logged, then remove the
path from `queued_files` under the lock.  Returns the resulting
`queued_files`, the resulting set of paths in `current_converting`, and
the records this job appended. -/
def workerHandleJob (w : JobWorld) (p : List Char) (mediaType : MediaType)
    (cfg : Config) (fuel : Nat) (pending inflight : List (List Char)) :
    List (List Char) × List (List Char) × List Record :=
  let r := convert_media w p mediaType cfg fuel
  let inflight2 :=
    if r.2.inflightRegistered then
      if r.2.inflightFinal then (inflight.filter (fun q => decide (q ≠ p))) ++ [p]
      else inflight.filter (fun q => decide (q ≠ p))
    else inflight
  let pending2 := pending.filter (fun q => decide (q ≠ p))
  (pending2, inflight2, r.2.records)

/-- The shared queue state: `queued_files` (the PendingSet) and the FIFO
contents of `conversion_queue`. -/
structure QueueState where
  queuedFiles : List (List Char)
  jobs : List (List Char × MediaType)
deriving DecidableEq, Repr

/-- `enqueue_file(file_path, media_type)`: under the lock, a no-op when
the path is already in `queued_files`, otherwise add it to the set and
append the job to the queue. -/
def enqueue_file (s : QueueState) (p : List Char) (mediaType : MediaType) : QueueState :=
  if p ∈ s.queuedFiles then s
  else ⟨s.queuedFiles ++ [p], s.jobs ++ [(p, mediaType)]⟩

/-- The number of jobs for path `p` in the queue. -/
def jobCount (s : QueueState) (p : List Char) : Nat :=
  s.jobs.countP (fun j => decide (j.1 = p))

/-- The number of occurrences of `p` in the PendingSet. -/
def pendingCount (s : QueueState) (p : List Char) : Nat :=
  s.queuedFiles.count p

/-! Supporting lemmas about the string primitives. -/

theorem startsWithL_iff (p : List Char) :
    ∀ (l : List Char), startsWithL l p = true ↔ ∃ t, l = p ++ t := by
  induction p with
  | nil => intro l; simp [startsWithL]
  | cons b bs ih =>
    intro l
    cases l with
    | nil => simp [startsWithL]
    | cons a as => simp [startsWithL, ih as]

theorem containsL_iff (n : List Char) :
    ∀ (h : List Char), containsL h n = true ↔ ∃ a b, h = a ++ n ++ b := by
  intro h
  induction h with
  | nil =>
    cases n with
    | nil => simp [containsL]
    | cons x xs => simp [containsL]
  | cons x t ih =>
    simp only [containsL, Bool.or_eq_true, startsWithL_iff, ih]
    constructor
    · rintro (⟨s, hs⟩ | ⟨a, b, hab⟩)
      · exact ⟨[], s, by simp [hs]⟩
      · exact ⟨x :: a, b, by simp [hab]⟩
    · rintro ⟨a, b, hab⟩
      cases a with
      | nil => exact Or.inl ⟨b, by simpa using hab⟩
      | cons y ys =>
        right
        refine ⟨ys, b, ?_⟩
        have h2 := (by simpa using hab : x = y ∧ t = ys ++ (n ++ b)).2
        simpa [List.append_assoc] using h2

theorem mem_of_containsL {h n : List Char} (hc : containsL h n = true) {c : Char}
    (hm : c ∈ n) : c ∈ h := by
  obtain ⟨a, b, rfl⟩ := (containsL_iff n h).1 hc
  simp [hm]

theorem lowerChar_not_upper (c : Char) : isUpperChar (lowerChar c) = false := by
  unfold lowerChar isUpperChar
  by_cases h : 65 ≤ c.toNat ∧ c.toNat ≤ 90
  · rw [if_pos h]
    obtain ⟨h1, h2⟩ := h
    revert h1 h2
    generalize c.toNat = n
    intro h1 h2
    interval_cases n <;> decide
  · rw [if_neg h]
    simpa using h

theorem matchesKw_upper_false (p kw : List Char) (hu : kw.any isUpperChar = true) :
    matchesKw (toLowerL p) kw = false := by
  obtain ⟨c, hck, hcu⟩ := List.any_eq_true.1 hu
  have key : ∀ needle : List Char, c ∈ needle → containsL (toLowerL p) needle = false := by
    intro needle hmemn
    by_contra hne
    have hcont : containsL (toLowerL p) needle = true := by
      cases hcl : containsL (toLowerL p) needle
      · exact absurd hcl hne
      · rfl
    have hmem : c ∈ toLowerL p := mem_of_containsL hcont hmemn
    obtain ⟨c2, _, hc2⟩ := List.mem_map.1 hmem
    rw [← hc2, lowerChar_not_upper] at hcu
    exact Bool.false_ne_true hcu
  unfold matchesKw
  rw [key ('/' :: (kw ++ ['/'])) (by simp [hck]), key ('\\' :: (kw ++ ['\\'])) (by simp [hck])]
  rfl

theorem audio_video_disjoint (e : List Char) (hv : videoExts.contains e = true) :
    audioExts.contains e = false := by
  have hm : e ∈ videoExts := by simpa using hv
  fin_cases hm <;> decide

theorem enqueue_mem_noop (s : QueueState) (p : List Char) (mediaType : MediaType)
    (h : p ∈ s.queuedFiles) : enqueue_file s p mediaType = s := by
  unfold enqueue_file
  rw [if_pos h]

theorem stabilityLoop_allNone :
    ∀ (fuel k : Nat), stabilityLoop (fun _ => none) fuel k = none := by
  intro fuel
  induction fuel with
  | zero => intro k; rfl
  | succ n ih =>
    intro k
    unfold stabilityLoop
    simp [is_file_stable]
    exact ih (k + 1)

/-! Concrete configurations, paths and worlds used by the closed
theorems and witnesses. -/

/-- The default configuration from `load_config`. -/
def defaultConfig : Config :=
  { tvShowKeywords := ["tv".data, "shows".data, "season".data]
    movieKeywords := ["movies".data, "films".data]
    musicKeywords := ["music".data, "audio".data]
    videoCodec := "libx265"
    audioCodecMusic := "libmp3lame"
    tvResolution := "1280x720"
    movieResolution := "1920x1080"
    dryRun := true }

/-- The default configuration with dry-run disabled. -/
def liveConfig : Config := { defaultConfig with dryRun := false }

/-- A configuration whose TV keyword contains uppercase letters. -/
def upperKwConfig : Config := { defaultConfig with tvShowKeywords := ["TV".data] }

def exPathMkv : List Char := "/media/movies/film.mkv".data

def exPathMp4 : List Char := "/media/movies/film.mp4".data

/-- A benign world: path exists, size immediately stable, h264 probe,
encode and replacement all succeed. -/
def baseWorld : JobWorld :=
  { existsAtEntry := true
    sizeReads := fun _ => some 1000
    probe := (some "h264", some 1920, some 800)
    origSize := some 1000
    encodeOk := true
    removeOrigOk := true
    renameOk := true
    newSize := some 600
    tmpExistsInHandler := false
    removeTmpOk := true }

/-- World whose probe reports an already-optimized hevc 1280-wide stream. -/
def optimizedWorld : JobWorld := { baseWorld with probe := (some "hevc", some 1280, some 720) }

/-- World where every size read fails: the file vanished. -/
def vanishedWorld : JobWorld := { baseWorld with sizeReads := fun _ => none }

/-- World where the encode fails and removing the temporary output in the
error handler also raises. -/
def leakWorld : JobWorld :=
  { baseWorld with encodeOk := false, tmpExistsInHandler := true, removeTmpOk := false }

/-- World where the original is removed but the rename of the temporary
output onto the final path raises. -/
def replaceFailWorld : JobWorld := { baseWorld with renameOk := false, tmpExistsInHandler := true }

/-! The claims. -/

/-- C1, counterexample: at a concrete file that `is_already_optimized`
reports true for, `convert_media` returns without appending any
`ConversionRecord` at all, so no success outcome with
`newSize == originalSize` is recorded, contrary to the claim. -/
theorem c1_optimized_skip_logs_nothing :
    is_already_optimized exPathMkv .movie defaultConfig optimizedWorld.probe = some true ∧
    convert_media optimizedWorld exPathMkv .movie defaultConfig 1 = (.retTrue, emptyEffects) ∧
    (convert_media optimizedWorld exPathMkv .movie defaultConfig 1).2.records = [] := by
  exact ⟨by decide, by decide, by decide⟩

/-- C1, amended: for every file path that the Optimization Oracle reports
true for, the worker terminates the job without invoking the Transcode
Executor (no encode subprocess, no file mutation, no InFlightStatus
registration) and also without recording any ConversionRecord. -/
theorem c1_optimized_skip_no_executor_no_record (w : JobWorld) (p : List Char)
    (mediaType : MediaType) (cfg : Config) (fuel k : Nat)
    (hex : w.existsAtEntry = true)
    (hst : stabilityLoop w.sizeReads fuel 0 = some k)
    (hopt : is_already_optimized p mediaType cfg w.probe = some true) :
    convert_media w p mediaType cfg fuel = (.retTrue, emptyEffects) := by
  unfold convert_media
  rw [hex, hst]
  unfold convertMediaCore
  rw [hopt]
  rfl

theorem c1_optimized_skip_no_executor_no_record_witness :
    convert_media optimizedWorld exPathMkv .tv defaultConfig 1 = (.retTrue, emptyEffects) :=
  c1_optimized_skip_no_executor_no_record optimizedWorld exPathMkv .tv defaultConfig 1 0
    (by decide) (by decide) (by decide)

/-- C2: for a video/tv/movie file with a parseable positive target width,
the oracle never raises, and it answers true iff the probed codec is an
HEVC/H.265 variant, the configured codec is an HEVC-family encoder, the
probed width is unset or at most the target width, and the container is
already `.mkv`; and whenever the probe returns no codec the answer is
false. -/
theorem c2_video_oracle_iff (p : List Char) (mediaType : MediaType) (cfg : Config)
    (probe : ProbeResult) (tw : Nat)
    (hmt : mediaType ≠ .audio)
    (htw : resWidth (if mediaType = .tv then cfg.tvResolution else cfg.movieResolution) = some tw)
    (htw0 : 0 < tw) :
    (∃ b, is_already_optimized p mediaType cfg probe = some b) ∧
    (is_already_optimized p mediaType cfg probe = some true ↔
      ((∃ c, probe.1 = some c ∧ (c = "hevc" ∨ c = "h265")) ∧
       (cfg.videoCodec = "libx265" ∨ cfg.videoCodec = "hevc") ∧
       (∀ w, probe.2.1 = some w → w ≤ tw) ∧
       endsWithL (toLowerL p) ".mkv".data = true)) ∧
    (probe.1 = none → is_already_optimized p mediaType cfg probe = some false) := by
  obtain ⟨c?, w?, h?⟩ := probe
  cases c? with
  | none => simp [is_already_optimized]
  | some c =>
    by_cases hc : c = ""
    · subst hc
      refine ⟨⟨false, by simp [is_already_optimized]⟩, ?_, by simp⟩
      simp [is_already_optimized]
    · have heq : is_already_optimized p mediaType cfg (some c, w?, h?) =
          some (((c = "hevc" || c = "h265") &&
              (cfg.videoCodec = "libx265" || cfg.videoCodec = "hevc")) &&
            (match w? with
             | none => true
             | some w => !(decide (w ≠ 0) && decide (tw ≠ 0) && decide (tw < w))) &&
            endsWithL (toLowerL p) ".mkv".data) := by
        simp only [is_already_optimized]
        rw [if_neg hc, if_neg hmt, htw]
      refine ⟨⟨_, heq⟩, ?_, fun hn => absurd hn (by simp)⟩
      rw [heq, Option.some_inj]
      cases w? with
      | none => simp [and_assoc]
      | some w =>
        simp only [Bool.and_eq_true, Bool.or_eq_true, decide_eq_true_eq,
          Bool.not_eq_true', Bool.and_eq_false_iff, decide_eq_false_iff_not,
          Option.some.injEq, and_assoc, not_not]
        constructor
        · rintro ⟨h1, h2, h3, h4⟩
          refine ⟨⟨c, rfl, h1⟩, h2, ?_, h4⟩
          intro w2 hw2
          subst hw2
          rcases h3 with (h | h) | h
          · omega
          · omega
          · exact Nat.le_of_not_lt h
        · rintro ⟨⟨c2, rfl, h1⟩, h2, h3, h4⟩
          refine ⟨h1, h2, ?_, h4⟩
          have := h3 w rfl
          omega

theorem c2_video_oracle_iff_witness :
    is_already_optimized exPathMkv .movie defaultConfig (some "hevc", some 1280, some 720) =
      some true :=
  (c2_video_oracle_iff exPathMkv .movie defaultConfig (some "hevc", some 1280, some 720) 1920
    (by decide) (by decide) (by decide)).2.1.2
    ⟨⟨"hevc", rfl, Or.inl rfl⟩, Or.inl rfl, by simp, by decide⟩

/-- C3, code bug: when every size read fails (the path vanished during
the stability wait), the loop guard `is_file_stable` is false at every
iteration, so `while not is_file_stable: sleep(10)` never exits: for any
fuel bound `convert_media` is still hanging with no record appended,
whereas the claim says the job terminates silently. -/
theorem c3_vanished_path_loop_never_exits :
    (∀ fuel k, stabilityLoop vanishedWorld.sizeReads fuel k = none) ∧
    (∀ fuel, convert_media vanishedWorld exPathMp4 .movie liveConfig fuel =
      (.hang, emptyEffects)) := by
  constructor
  · exact stabilityLoop_allNone
  · intro fuel
    unfold convert_media
    have hreads : vanishedWorld.sizeReads = (fun _ => none) := rfl
    rw [hreads, stabilityLoop_allNone fuel 0]
    rfl

/-- C4, code bug: when the encode fails and removing the temporary output
inside the `except` handler itself raises, the exception escapes
`convert_media` before `del current_converting[file_path]` runs; the
worker's catch-all then removes the path from `queued_files`, but the
InFlightStatus entry is left behind, contrary to the claim's guaranteed
cleanup. -/
theorem c4_inflight_entry_leaks_on_handler_failure :
    workerHandleJob leakWorld exPathMp4 .movie liveConfig 1 [exPathMp4] [] =
      ([], [exPathMp4], []) := by decide

/-- C5: `enqueue_file` is idempotent: enqueueing an already-pending path
is a no-op, and two back-to-back enqueues from a state without the path
leave exactly one job for it in the queue and the path exactly once in
the PendingSet. -/
theorem c5_enqueue_idempotent (s : QueueState) (p : List Char) (mediaType : MediaType) :
    (enqueue_file (enqueue_file s p mediaType) p mediaType = enqueue_file s p mediaType) ∧
    (p ∈ s.queuedFiles → enqueue_file s p mediaType = s) ∧
    (p ∉ s.queuedFiles → jobCount s p = 0 → pendingCount s p = 0 →
      jobCount (enqueue_file (enqueue_file s p mediaType) p mediaType) p = 1 ∧
      pendingCount (enqueue_file (enqueue_file s p mediaType) p mediaType) p = 1) := by
  by_cases hp : p ∈ s.queuedFiles
  · exact ⟨by rw [enqueue_mem_noop s p mediaType hp, enqueue_mem_noop s p mediaType hp],
      fun _ => enqueue_mem_noop s p mediaType hp, fun hn => absurd hp hn⟩
  · have h1 : enqueue_file s p mediaType =
        ⟨s.queuedFiles ++ [p], s.jobs ++ [(p, mediaType)]⟩ := by
      unfold enqueue_file
      rw [if_neg hp]
    have hmem : p ∈ (enqueue_file s p mediaType).queuedFiles := by
      rw [h1]; simp
    have h2 : enqueue_file (enqueue_file s p mediaType) p mediaType =
        enqueue_file s p mediaType := enqueue_mem_noop _ p mediaType hmem
    refine ⟨h2, fun hin => absurd hin hp, fun _ hj hpc => ?_⟩
    rw [h2, h1]
    unfold jobCount at hj
    unfold pendingCount at hpc
    unfold jobCount pendingCount
    constructor
    · rw [List.countP_append, hj, List.countP_cons, List.countP_nil]
      simp
    · rw [List.count_append, hpc, List.count_cons, List.count_nil]
      simp

theorem c5_enqueue_idempotent_witness :
    jobCount (enqueue_file (enqueue_file ⟨[], []⟩ exPathMp4 .movie) exPathMp4 .movie)
      exPathMp4 = 1 ∧
    pendingCount (enqueue_file (enqueue_file ⟨[], []⟩ exPathMp4 .movie) exPathMp4 .movie)
      exPathMp4 = 1 :=
  (c5_enqueue_idempotent ⟨[], []⟩ exPathMp4 .movie).2.2 (by decide) (by decide) (by decide)

/-- C6: the classifier's decision table: an audio extension is always
`audio` (music keywords or not); a video extension is `tv` when a TV
keyword segment matches and `movie` otherwise (matching movie keyword or
default); any other extension gets no category; and a keyword matches
only as a whole directory name bounded by the same path separator on
both sides, never as a proper substring of a folder name. -/
theorem c6_classifier_decision_table (p : List Char) (cfg : Config) :
    (audioExts.contains (toLowerL (splitextExt p)) = true →
      get_media_type p cfg = some .audio) ∧
    (videoExts.contains (toLowerL (splitextExt p)) = true →
      cfg.tvShowKeywords.any (fun kw => matchesKw (toLowerL p) kw) = true →
      get_media_type p cfg = some .tv) ∧
    (videoExts.contains (toLowerL (splitextExt p)) = true →
      cfg.tvShowKeywords.any (fun kw => matchesKw (toLowerL p) kw) = false →
      get_media_type p cfg = some .movie) ∧
    (audioExts.contains (toLowerL (splitextExt p)) = false →
      videoExts.contains (toLowerL (splitextExt p)) = false →
      get_media_type p cfg = none) ∧
    (∀ kw : List Char, matchesKw (toLowerL p) kw = true →
      ∃ a b, toLowerL p = a ++ ('/' :: (kw ++ ['/'])) ++ b ∨
             toLowerL p = a ++ ('\\' :: (kw ++ ['\\'])) ++ b) := by
  refine ⟨?_, ?_, ?_, ?_, ?_⟩
  · intro h1
    have h1m : toLowerL (splitextExt p) ∈ audioExts := by simpa using h1
    by_cases hm : ∃ x ∈ cfg.musicKeywords, matchesKw (toLowerL p) x = true <;>
      simp [get_media_type, h1m, hm]
  · intro hv htv
    have hvm : toLowerL (splitextExt p) ∈ videoExts := by simpa using hv
    have ham : toLowerL (splitextExt p) ∉ audioExts := by
      simpa using audio_video_disjoint _ hv
    have htvm : ∃ x ∈ cfg.tvShowKeywords, matchesKw (toLowerL p) x = true := by
      simpa using htv
    by_cases hm : ∃ x ∈ cfg.musicKeywords, matchesKw (toLowerL p) x = true <;>
      simp [get_media_type, hvm, ham, htvm, hm]
  · intro hv htv
    have hvm : toLowerL (splitextExt p) ∈ videoExts := by simpa using hv
    have ham : toLowerL (splitextExt p) ∉ audioExts := by
      simpa using audio_video_disjoint _ hv
    have htvm : ¬ ∃ x ∈ cfg.tvShowKeywords, matchesKw (toLowerL p) x = true := by
      simpa using htv
    by_cases hm : ∃ x ∈ cfg.musicKeywords, matchesKw (toLowerL p) x = true <;>
      simp [get_media_type, hvm, ham, htvm, hm]
  · intro ha hv
    have ham : toLowerL (splitextExt p) ∉ audioExts := by simpa using ha
    have hvm : toLowerL (splitextExt p) ∉ videoExts := by simpa using hv
    by_cases hm : ∃ x ∈ cfg.musicKeywords, matchesKw (toLowerL p) x = true <;>
      simp [get_media_type, ham, hvm, hm]
  · intro kw hkw
    have h2 : containsL (toLowerL p) ('/' :: (kw ++ ['/'])) = true ∨
        containsL (toLowerL p) ('\\' :: (kw ++ ['\\'])) = true := by
      simpa [matchesKw] using hkw
    rcases h2 with h | h
    · obtain ⟨a, b, hab⟩ := (containsL_iff _ _).1 h
      exact ⟨a, b, Or.inl hab⟩
    · obtain ⟨a, b, hab⟩ := (containsL_iff _ _).1 h
      exact ⟨a, b, Or.inr hab⟩

theorem c6_classifier_decision_table_witness :
    get_media_type "/library/flac/song.mp3".data defaultConfig = some .audio ∧
    get_media_type "/library/tv/ep.mkv".data defaultConfig = some .tv ∧
    get_media_type "/library/unsorted/clip.avi".data defaultConfig = some .movie ∧
    get_media_type "/library/notes.txt".data defaultConfig = none :=
  ⟨(c6_classifier_decision_table "/library/flac/song.mp3".data defaultConfig).1 (by decide),
   (c6_classifier_decision_table "/library/tv/ep.mkv".data defaultConfig).2.1
     (by decide) (by decide),
   (c6_classifier_decision_table "/library/unsorted/clip.avi".data defaultConfig).2.2.1
     (by decide) (by decide),
   (c6_classifier_decision_table "/library/notes.txt".data defaultConfig).2.2.2.1
     (by decide) (by decide)⟩

/-- C7, code bug: at a concrete job where the original's remove succeeds
but the rename of the temporary output raises, `convert_media` removes
the original and then the error handler also removes the transcoded
temporary, so the original is not left intact and no final output is in
place, contrary to the claim; an error record is still logged. -/
theorem c7_replace_failure_loses_original :
    (convert_media replaceFailWorld exPathMp4 .movie liveConfig 1).2.fsActions =
      [.removeOriginal, .removeTmp] ∧
    ((convert_media replaceFailWorld exPathMp4 .movie liveConfig 1).2.records.map
      Record.status) = ["error"] := by decide

/-- C8: with dry-run enabled, processing a stable non-optimized file
starts no encode subprocess, performs no filesystem mutation, and appends
exactly one record with status success (dry-run) whose newSize equals its
originalSize; the run is a pure function of the unchanged world, so a
second identical run yields the identical record again. -/
theorem c8_dry_run_single_record_no_mutation (w : JobWorld) (p : List Char)
    (mediaType : MediaType) (cfg : Config) (fuel k : Nat)
    (hex : w.existsAtEntry = true)
    (hst : stabilityLoop w.sizeReads fuel 0 = some k)
    (hopt : is_already_optimized p mediaType cfg w.probe = some false)
    (hdry : cfg.dryRun = true) :
    convert_media w p mediaType cfg fuel =
      (.retTrue, ⟨[⟨baseNameL p, mediaType, w.origSize.getD 0, w.origSize.getD 0,
        "success (dry-run)", ""⟩], [], false, true, false⟩) := by
  unfold convert_media
  rw [hex, hst]
  unfold convertMediaCore
  rw [hopt]
  simp only [hdry]
  rfl

theorem c8_dry_run_single_record_no_mutation_witness :
    convert_media baseWorld exPathMp4 .movie defaultConfig 1 =
      (.retTrue, ⟨[⟨baseNameL exPathMp4, .movie, 1000, 1000, "success (dry-run)", ""⟩],
        [], false, true, false⟩) :=
  c8_dry_run_single_record_no_mutation baseWorld exPathMp4 .movie defaultConfig 1 0
    (by decide) (by decide) (by decide) (by decide)

/-- C9, code bug: in the trace where the error handler's temporary-file
removal raises, after the worker finishes the job the path is still in
`current_converting` but no longer in `queued_files`, so InFlightStatus
is not a subset of the PendingSet at that instant, contrary to the
claimed invariant. -/
theorem c9_inflight_not_subset_of_pending :
    exPathMp4 ∈ (workerHandleJob leakWorld exPathMp4 .movie liveConfig 1 [exPathMp4] []).2.1 ∧
    exPathMp4 ∉ (workerHandleJob leakWorld exPathMp4 .movie liveConfig 1 [exPathMp4] []).1 := by
  decide

/-- C10: keyword matching is case-sensitive in the keyword: the path is
lower-cased while keywords are compared verbatim, so a keyword containing
an uppercase letter never matches any path; in particular a TV keyword
`TV` leaves files under a `TV` directory in the default movie bucket. -/
theorem c10_uppercase_keyword_never_matches :
    (∀ (p kw : List Char), kw.any isUpperChar = true → matchesKw (toLowerL p) kw = false) ∧
    get_media_type "/library/TV/episode.mp4".data upperKwConfig = some .movie := by
  constructor
  · exact matchesKw_upper_false
  · decide

theorem c10_uppercase_keyword_never_matches_witness :
    matchesKw (toLowerL "/library/TV/episode.mp4".data) "TV".data = false ∧
    get_media_type "/library/TV/episode.mp4".data upperKwConfig = some .movie :=
  ⟨c10_uppercase_keyword_never_matches.1 "/library/TV/episode.mp4".data "TV".data (by decide),
   c10_uppercase_keyword_never_matches.2⟩

end SizeTrimmer
